import Mathlib

/-!
Verification development for the Mark-rs Markdown parsing core
(`src/parser.rs`).  The token and element data types, the
`classify_flanking` method and the `push_buffer_to_collection` utility
live in modules of the repository that are not part of `src/`
(`types.rs`, `utils.rs`, the config); those are modelled from the spec
(§3, §4.4, §6) and are marked as such.  Everything else is translated
directly from `src/parser.rs`.

Iteration is embedded with explicit fuel chosen large enough at every
call site (each loop iteration of the Rust code advances the cursor by
at least one token, so `tokens.length + 1` steps bound any single
loop); running out of fuel returns the state unchanged and is
unreachable for the fuel values used.  Rust `Vec` indexing/splicing
panics out of bounds; the embedding's list primitives clamp instead,
which agrees with the source on every in-bounds execution.
-/

namespace Markrs

/-- Modelled from the spec: the `Token` type of `types.rs` (spec §3). -/
inductive Token where
  | text (s : String)
  | punctuation (s : String)
  | whitespace
  | tab
  | newline
  | escape (c : Char)
  | orderedListMarker (s : String)
  | emphasisRun (delimiter : Char) (length : Nat)
  | openParenthesis
  | closeParenthesis
  | openBracket
  | closeBracket
  | tableCellSeparator
  | codeTick
  | codeFence
  | blockQuoteMarker
  | thematicBreak
  | rawHtmlTag (s : String)
deriving DecidableEq, Repr, Inhabited

/-- Modelled from the spec: the `MdInlineElement` type of `types.rs` (spec §3). -/
inductive MdInlineElement where
  | text (content : String)
  | bold (content : List MdInlineElement)
  | italic (content : List MdInlineElement)
  | code (content : String)
  | link (textContent : List MdInlineElement) (title : Option String) (url : String)
  | image (alt_text : String) (title : Option String) (url : String)
  | placeholder
deriving Repr, Inhabited

/-- Modelled from the spec: the `TableAlignment` type of `types.rs` (spec §3). -/
inductive TableAlignment where
  | none
  | left
  | right
  | center
deriving DecidableEq, Repr, Inhabited

/-- Modelled from the spec: the `MdTableCell` type of `types.rs` (spec §3). -/
structure MdTableCell where
  content : List MdInlineElement
  alignment : TableAlignment
  is_header : Bool
deriving Repr, Inhabited

mutual
/-- Modelled from the spec: the `MdBlockElement` type of `types.rs` (spec §3). -/
inductive MdBlockElement where
  | paragraph (content : List MdInlineElement)
  | header (level : Nat) (content : List MdInlineElement)
  | unorderedList (items : List MdListItem)
  | orderedList (items : List MdListItem)
  | codeBlock (language : Option String) (lines : List String)
  | blockQuote (content : List MdBlockElement)
  | table (headers : List MdTableCell) (body : List (List MdTableCell))
  | rawHtml (content : String)
  | thematicBreak
deriving Repr, Inhabited

/-- Modelled from the spec: `ListItem{content}` of `types.rs` (spec §3). -/
inductive MdListItem where
  | mk (content : MdBlockElement)
deriving Repr, Inhabited
end

/-- Modelled from the spec: the `Delimiter` record of `types.rs` (spec §3). -/
structure Delimiter where
  run_length : Nat
  ch : Char
  token_position : Nat
  parsed_position : Nat
  active : Bool
  can_open : Bool
  can_close : Bool
deriving DecidableEq, Repr

instance : Inhabited Delimiter :=
  ⟨{ run_length := 0, ch := '*', token_position := 0, parsed_position := 0,
     active := false, can_open := false, can_close := false }⟩

/-- Modelled from the spec: `tab_size` from the injected configuration
(spec §6, `tab_size : int > 0`); the concrete value is irrelevant to the
claims, `4` is used. -/
def tab_size : Nat := 4

/-- Rust's `str::repeat`. -/
def strRepeat (s : String) : Nat → String
  | 0 => ""
  | n + 1 => s ++ strRepeat s n

/-- Rust's `slice::split(pred)`: splits on matching elements, the
separators are dropped, empty segments at the ends are kept. -/
def splitOnPred (p : Token → Bool) : List Token → List (List Token)
  | [] => [[]]
  | t :: ts =>
    if p t then [] :: splitOnPred p ts
    else
      match splitOnPred p ts with
      | [] => [[t]]
      | s :: rest => (t :: s) :: rest

/-- `(l.drop a).take (b - a)`: the Rust slice `l[a..b]` (clamped instead
of panicking out of bounds). -/
def sliceList (l : List MdInlineElement) (a b : Nat) : List MdInlineElement :=
  (l.drop a).take (b - a)

/-- Replace the element at index `k` (Rust `l[k] = f(l[k])`; no-op out
of bounds where Rust would panic). -/
def listModify (l : List Delimiter) (k : Nat) (f : Delimiter → Delimiter) : List Delimiter :=
  l.set k (f (l.getD k default))

/-- Modelled from the spec: `utils::push_buffer_to_collection` for
element lists (`utils.rs` is not in `src/`): flush the buffer into the
collection as a `Text` element when it is non-empty, clearing it. -/
def pushBufferEl (els : List MdInlineElement) (buf : String) : List MdInlineElement :=
  if buf = "" then els else els ++ [MdInlineElement.text buf]

/-- Modelled from the spec: `utils::push_buffer_to_collection` for
string collections: push the buffer when non-empty, clearing it. -/
def pushBufferStr (ss : List String) (buf : String) : List String :=
  if buf = "" then ss else ss ++ [buf]

/-- Token classes used by the flanking rules (spec §4.4): whitespace-like
tokens. -/
def isWsToken : Token → Bool
  | Token.whitespace => true
  | Token.tab => true
  | Token.newline => true
  | _ => false

/-- Word-character tokens for the flanking rules (spec §4.4). -/
def isWordToken : Token → Bool
  | Token.text _ => true
  | _ => false

/-- Modelled from the spec: `Delimiter::classify_flanking` (`types.rs`
is not in `src/`; spec §4.4): `can_open` iff the token before the run is
missing, whitespace or punctuation-like and the token after it exists
and is not whitespace; `can_close` symmetrically; for `_` additionally
no intra-word emphasis. -/
def classify_flanking (tokens : List Token) (d : Delimiter) : Delimiter :=
  let before : Option Token :=
    if d.token_position = 0 then none else tokens[d.token_position - 1]?
  let after : Option Token := tokens[d.token_position + 1]?
  let beforeOpenOk : Bool :=
    match before with
    | none => true
    | some t => isWsToken t || !(isWordToken t)
  let afterOpenOk : Bool :=
    match after with
    | none => false
    | some t => !(isWsToken t)
  let afterCloseOk : Bool :=
    match after with
    | none => true
    | some t => isWsToken t || !(isWordToken t)
  let beforeCloseOk : Bool :=
    match before with
    | none => false
    | some t => !(isWsToken t)
  let underscoreOpenOk : Bool :=
    if d.ch = '_' then
      match before with
      | some t => !(isWordToken t)
      | none => true
    else true
  let underscoreCloseOk : Bool :=
    if d.ch = '_' then
      match after with
      | some t => !(isWordToken t)
      | none => true
    else true
  { d with
    can_open := beforeOpenOk && afterOpenOk && underscoreOpenOk
    can_close := beforeCloseOk && afterCloseOk && underscoreCloseOk }

/-- `flatten_inline` (`parser.rs:891`): flattens inline elements into
the concatenation of their textual content.  The Rust recursion is
bounded by the term structure; here one fuel unit is spent per list
step and per descent, so any fuel exceeding the total number of inline
nodes gives the same result; callers pass an ample bound derived from
the token count. -/
def flatten_inline : Nat → List MdInlineElement → String
  | 0, _ => ""
  | _ + 1, [] => ""
  | f + 1, el :: rest =>
    (match el with
     | MdInlineElement.text c => c
     | MdInlineElement.bold c => flatten_inline f c
     | MdInlineElement.italic c => flatten_inline f c
     | MdInlineElement.code c => c
     | MdInlineElement.link t _ _ => flatten_inline f t
     | MdInlineElement.image alt _ _ => alt
     | MdInlineElement.placeholder => "") ++ flatten_inline f rest

/-- One inner iteration of the backwards opener scan of
`resolve_emphasis` (`parser.rs:933-1012`), at opener candidate index
`j`, for the closer at index `i` (`closer` is the clone taken before
the scan, as in the source). -/
def resolveStepJ (closer : Delimiter) (i : Nat)
    (st : List MdInlineElement × List Delimiter) (j : Nat) :
    List MdInlineElement × List Delimiter :=
  let els := st.1
  let stk := st.2
  let dj := stk.getD j default
  if !dj.active || !dj.can_open then st
  else
    let opener := dj
    if !(closer.ch = opener.ch) then st
    else
      let length_total := closer.run_length + opener.run_length
      if ((closer.can_open && closer.can_close) || (opener.can_open && opener.can_close))
          && (length_total % 3 = 0 && !(closer.run_length % 3 = 0)
              && !(opener.run_length % 3 = 0)) then st
      else
        let delimiters_used := if 2 ≤ closer.run_length && 2 ≤ opener.run_length then 2 else 1
        let range_start :=
          if delimiters_used < opener.run_length then opener.parsed_position + 1
          else opener.parsed_position
        let range_end :=
          if delimiters_used ≤ closer.run_length then closer.parsed_position
          else closer.parsed_position + 1
        let content := sliceList els (range_start + 1) range_end
        let element_to_insert :=
          if delimiters_used = 2 then MdInlineElement.bold content
          else MdInlineElement.italic content
        let els' := els.take range_start ++ [element_to_insert] ++ els.drop (range_end + 1)
        let num_elements_removed := range_end - range_start
        let stk' := stk.map fun d =>
          if closer.parsed_position < d.parsed_position then
            { d with parsed_position := d.parsed_position - num_elements_removed }
          else d
        let stk' := listModify stk' i fun d =>
          { d with run_length := d.run_length - delimiters_used }
        let stk' := listModify stk' j fun d =>
          { d with run_length := d.run_length - delimiters_used }
        let stk' := listModify stk' i fun d =>
          if d.run_length = 0 then { d with active := false } else d
        let stk' := listModify stk' j fun d =>
          if d.run_length = 0 then { d with active := false } else d
        (els', stk')

/-- One outer iteration of `resolve_emphasis` at closer candidate index
`i`: scan `j = i-1, …, 0` with the cloned closer. -/
def resolveOuterStep (st : List MdInlineElement × List Delimiter) (i : Nat) :
    List MdInlineElement × List Delimiter :=
  let di := st.2.getD i default
  if !di.active || !di.can_close then st
  else ((List.range i).reverse).foldl (resolveStepJ di i) st

/-- `resolve_emphasis` (`parser.rs:914`). Returns the rewritten element
list (the Rust function mutates `elements` in place). -/
def resolve_emphasis (elements : List MdInlineElement) (delimiter_stack : List Delimiter) :
    List MdInlineElement :=
  if delimiter_stack.length = 1 then
    let d := delimiter_stack.getD 0 default
    if d.active then
      elements.set d.parsed_position (MdInlineElement.text d.ch.toString)
    else elements
  else
    let st := (List.range delimiter_stack.length).foldl resolveOuterStep
      (elements, delimiter_stack)
    st.2.foldl
      (fun es d =>
        if d.active && d.parsed_position < es.length then
          es.set d.parsed_position (MdInlineElement.text d.ch.toString)
        else es)
      st.1

/-- Per-token rendering inside `parse_code_span` (`parser.rs:670-699`). -/
def renderSpanToken : Token → String
  | Token.text s => s
  | Token.punctuation s => s
  | Token.orderedListMarker s => s
  | Token.escape c => "\\" ++ c.toString
  | Token.openParenthesis => "("
  | Token.closeParenthesis => ")"
  | Token.openBracket => "["
  | Token.closeBracket => "]"
  | Token.tableCellSeparator => "|"
  | Token.emphasisRun d n => strRepeat d.toString n
  | Token.whitespace => " "
  | Token.tab => strRepeat " " tab_size
  | Token.newline => "\n"
  | Token.thematicBreak => "---"
  | Token.blockQuoteMarker => ">"
  | Token.rawHtmlTag s => s
  | Token.codeFence => ""
  | Token.codeTick => ""

/-- `parse_code_span` (`parser.rs:670`): scan forward from `pos` until a
`CodeTick` or the end, concatenating the faithful-ish rendering of each
token; returns the content and the final cursor position.  `fuel` is
spent one unit per consumed token; callers pass at least
`tokens.length`, which always suffices. -/
def parse_code_span (fuel : Nat) (tokens : List Token) (pos : Nat) : String × Nat :=
  match fuel with
  | 0 => ("", pos)
  | fuel + 1 =>
    match tokens[pos]? with
    | none => ("", pos)
    | some t =>
      if t = Token.codeTick then ("", pos)
      else
        let r := parse_code_span fuel tokens (pos + 1)
        (renderSpanToken t ++ r.1, r.2)

/-- The URI/title scanning loop of `parse_link_type`
(`parser.rs:810-868`).  State: `(uri, title, is_building_title,
is_valid_title, has_opening_quote, pos)`; returns at `)` or the end. -/
def uriTitleLoop (fuel : Nat) (tokens : List Token)
    (uri title : String) (is_building_title is_valid_title has_opening_quote : Bool)
    (pos : Nat) : String × String × Bool × Nat :=
  match fuel with
  | 0 => (uri, title, is_valid_title, pos)
  | fuel + 1 =>
    match tokens[pos]? with
    | none => (uri, title, is_valid_title, pos)
    | some tok =>
      if !is_building_title then
        match tok with
        | Token.closeParenthesis => (uri, title, is_valid_title, pos)
        | Token.text s =>
          uriTitleLoop fuel tokens (uri ++ s) title is_building_title is_valid_title
            has_opening_quote (pos + 1)
        | Token.punctuation s =>
          uriTitleLoop fuel tokens (uri ++ s) title is_building_title is_valid_title
            has_opening_quote (pos + 1)
        | Token.orderedListMarker s =>
          uriTitleLoop fuel tokens (uri ++ s) title is_building_title is_valid_title
            has_opening_quote (pos + 1)
        | Token.escape c =>
          uriTitleLoop fuel tokens (uri ++ "\\" ++ c.toString) title is_building_title
            is_valid_title has_opening_quote (pos + 1)
        | Token.whitespace =>
          uriTitleLoop fuel tokens uri title true is_valid_title has_opening_quote (pos + 1)
        | Token.thematicBreak =>
          uriTitleLoop fuel tokens (uri ++ "---") title is_building_title is_valid_title
            has_opening_quote (pos + 1)
        | Token.tableCellSeparator =>
          uriTitleLoop fuel tokens (uri ++ "|") title is_building_title is_valid_title
            has_opening_quote (pos + 1)
        | Token.blockQuoteMarker =>
          uriTitleLoop fuel tokens (uri ++ ">") title is_building_title is_valid_title
            has_opening_quote (pos + 1)
        | Token.rawHtmlTag s =>
          uriTitleLoop fuel tokens (uri ++ s) title is_building_title is_valid_title
            has_opening_quote (pos + 1)
        | _ =>
          uriTitleLoop fuel tokens uri title is_building_title is_valid_title
            has_opening_quote (pos + 1)
      else
        match tok with
        | Token.closeParenthesis => (uri, title, is_valid_title, pos)
        | Token.punctuation s =>
          if s = "\"" then
            if has_opening_quote then
              uriTitleLoop fuel tokens uri title false true has_opening_quote (pos + 1)
            else
              uriTitleLoop fuel tokens uri title is_building_title false true (pos + 1)
          else
            uriTitleLoop fuel tokens uri (title ++ s) is_building_title is_valid_title
              has_opening_quote (pos + 1)
        | Token.text s =>
          uriTitleLoop fuel tokens uri (title ++ s) is_building_title is_valid_title
            has_opening_quote (pos + 1)
        | Token.orderedListMarker s =>
          uriTitleLoop fuel tokens uri (title ++ s) is_building_title is_valid_title
            has_opening_quote (pos + 1)
        | Token.escape c =>
          uriTitleLoop fuel tokens uri (title ++ "\\" ++ c.toString) is_building_title
            is_valid_title has_opening_quote (pos + 1)
        | Token.emphasisRun d n =>
          uriTitleLoop fuel tokens uri (title ++ strRepeat d.toString n) is_building_title
            is_valid_title has_opening_quote (pos + 1)
        | Token.openBracket =>
          uriTitleLoop fuel tokens uri (title ++ "[") is_building_title is_valid_title
            has_opening_quote (pos + 1)
        | Token.closeBracket =>
          uriTitleLoop fuel tokens uri (title ++ "]") is_building_title is_valid_title
            has_opening_quote (pos + 1)
        | Token.openParenthesis =>
          uriTitleLoop fuel tokens uri (title ++ "(") is_building_title is_valid_title
            has_opening_quote (pos + 1)
        | Token.tableCellSeparator =>
          uriTitleLoop fuel tokens uri (title ++ "|") is_building_title is_valid_title
            has_opening_quote (pos + 1)
        | Token.tab =>
          uriTitleLoop fuel tokens uri (title ++ "\t") is_building_title is_valid_title
            has_opening_quote (pos + 1)
        | Token.newline =>
          uriTitleLoop fuel tokens uri (title ++ "\\n") is_building_title is_valid_title
            has_opening_quote (pos + 1)
        | Token.whitespace =>
          uriTitleLoop fuel tokens uri (title ++ " ") is_building_title is_valid_title
            has_opening_quote (pos + 1)
        | Token.codeTick =>
          uriTitleLoop fuel tokens uri (title ++ "`") is_building_title is_valid_title
            has_opening_quote (pos + 1)
        | Token.codeFence =>
          uriTitleLoop fuel tokens uri (title ++ "```") is_building_title is_valid_title
            has_opening_quote (pos + 1)
        | Token.thematicBreak =>
          uriTitleLoop fuel tokens uri (title ++ "---") is_building_title is_valid_title
            has_opening_quote (pos + 1)
        | Token.blockQuoteMarker =>
          uriTitleLoop fuel tokens uri (title ++ ">") is_building_title is_valid_title
            has_opening_quote (pos + 1)
        | Token.rawHtmlTag s =>
          uriTitleLoop fuel tokens uri (title ++ s) is_building_title is_valid_title
            has_opening_quote (pos + 1)

/-- The tail of `parse_link_type` (`parser.rs:789-882`), after the label
scan: flush, locally resolve emphasis, then check `]`, `(`, scan the
URI/title and build the element.  Takes the label-loop result
`(label_elements, label_buffer, delimiter_stack, pos)` with the cursor
on the token that ended the label scan. -/
def finishLinkType (isImage : Bool) (tokens : List Token)
    (r : List MdInlineElement × String × List Delimiter × Nat) : MdInlineElement × Nat :=
  let label_elements := pushBufferEl r.1 r.2.1
  let delimiter_stack := r.2.2.1
  let pos := r.2.2.2
  let label_elements := resolve_emphasis label_elements delimiter_stack
  if !(tokens[pos]? = some Token.closeBracket) then
    (MdInlineElement.text ("[" ++ flatten_inline (4 * tokens.length + 4) label_elements), pos)
  else if !(tokens[pos + 1]? = some Token.openParenthesis) then
    (MdInlineElement.text ("[" ++ flatten_inline (4 * tokens.length + 4) label_elements ++ "]"), pos + 1)
  else
    let pos := pos + 1
    let u := uriTitleLoop (tokens.length + 1) tokens "" "" false true false pos
    let uri := u.1
    let title := u.2.1
    let is_valid_title := u.2.2.1
    let pos := u.2.2.2
    if !(tokens[pos]? = some Token.closeParenthesis) then
      (MdInlineElement.text ("[" ++ flatten_inline (4 * tokens.length + 4) label_elements ++ "](" ++ uri ++ " "), pos)
    else if !(title = "") && !is_valid_title then
      (MdInlineElement.text
        ("[" ++ flatten_inline (4 * tokens.length + 4) label_elements ++ "](" ++ uri ++ " " ++ title ++ ")"), pos)
    else
      let t := if title = "" then none else some title
      if isImage then (MdInlineElement.image (flatten_inline (4 * tokens.length + 4) label_elements) t uri, pos)
      else (MdInlineElement.link label_elements t uri, pos)

/-- The label-scanning loop of `parse_link_type` (`parser.rs:737-787`).
State: accumulated label elements, label buffer, local delimiter stack,
cursor position.  Nested `[` / `![` recurse through `finishLinkType`
one fuel unit lower; `fuel ≥ 2 * tokens.length + 2` always suffices. -/
def labelLoop (fuel : Nat) (tokens : List Token) (pos : Nat)
    (els : List MdInlineElement) (buf : String) (stk : List Delimiter) :
    List MdInlineElement × String × List Delimiter × Nat :=
  match fuel with
  | 0 => (els, buf, stk, pos)
  | fuel + 1 =>
    match tokens[pos]? with
    | none => (els, buf, stk, pos)
    | some tok =>
      match tok with
      | Token.closeBracket => (pushBufferEl els buf, "", stk, pos)
      | Token.openBracket =>
        let els := pushBufferEl els buf
        let inner := finishLinkType false tokens (labelLoop fuel tokens (pos + 1) [] "" [])
        labelLoop fuel tokens (inner.2 + 1) (els ++ [inner.1]) "" stk
      | Token.emphasisRun delimiter length =>
        let els := pushBufferEl els buf
        let stk := stk ++ [(⟨length, delimiter, pos, els.length, true, true, true⟩ : Delimiter)]
        labelLoop fuel tokens (pos + 1) (els ++ [MdInlineElement.placeholder]) "" stk
      | Token.punctuation s =>
        if s = "!" then
          if !(tokens[pos + 1]? = some Token.openBracket) then
            labelLoop fuel tokens (pos + 1) els (buf ++ "!") stk
          else
            let els := pushBufferEl els buf
            let inner := finishLinkType true tokens (labelLoop fuel tokens (pos + 2) [] "" [])
            labelLoop fuel tokens (inner.2 + 1) (els ++ [inner.1]) "" stk
        else labelLoop fuel tokens (pos + 1) els (buf ++ s) stk
      | Token.text s => labelLoop fuel tokens (pos + 1) els (buf ++ s) stk
      | Token.orderedListMarker s => labelLoop fuel tokens (pos + 1) els (buf ++ s) stk
      | Token.escape c =>
        labelLoop fuel tokens (pos + 1) els (buf ++ "\\" ++ c.toString) stk
      | Token.whitespace => labelLoop fuel tokens (pos + 1) els (buf ++ " ") stk
      | Token.thematicBreak => labelLoop fuel tokens (pos + 1) els (buf ++ "---") stk
      | Token.openParenthesis => labelLoop fuel tokens (pos + 1) els (buf ++ "(") stk
      | Token.closeParenthesis => labelLoop fuel tokens (pos + 1) els (buf ++ ")") stk
      | Token.tableCellSeparator => labelLoop fuel tokens (pos + 1) els (buf ++ "|") stk
      | Token.blockQuoteMarker => labelLoop fuel tokens (pos + 1) els (buf ++ ">") stk
      | _ => labelLoop fuel tokens (pos + 1) els buf stk

/-- `parse_link_type` (`parser.rs:729`): the cursor is on the opening
`[`; scan the label (with its local delimiter stack), then finish.
Returns the element and the final cursor position. -/
def parse_link_type (isImage : Bool) (fuel : Nat) (tokens : List Token) (pos : Nat) :
    MdInlineElement × Nat :=
  finishLinkType isImage tokens (labelLoop fuel tokens (pos + 1) [] "" [])

/-- The main loop of `parse_inline` (`parser.rs:568-650`).  State:
parsed elements, text buffer, delimiter stack; one fuel unit per
iteration (each iteration advances the cursor, so `tokens.length + 1`
suffices). -/
def inlineLoop (fuel : Nat) (tokens : List Token) (pos : Nat)
    (els : List MdInlineElement) (buf : String) (stk : List Delimiter) :
    List MdInlineElement × String × List Delimiter :=
  match fuel with
  | 0 => (els, buf, stk)
  | fuel + 1 =>
    if pos < tokens.length then
      match tokens[pos]? with
      | none => (els, buf, stk)
      | some tok =>
        match tok with
        | Token.emphasisRun delimiter length =>
          let els := pushBufferEl els buf
          let stk := stk ++ [(⟨length, delimiter, pos, els.length, true, true, true⟩ : Delimiter)]
          inlineLoop fuel tokens (pos + 1) (els ++ [MdInlineElement.placeholder]) "" stk
        | Token.openBracket =>
          let els := pushBufferEl els buf
          let r := parse_link_type false (2 * tokens.length + 2) tokens pos
          inlineLoop fuel tokens (r.2 + 1) (els ++ [r.1]) "" stk
        | Token.codeTick =>
          let els := pushBufferEl els buf
          let r := parse_code_span tokens.length tokens (pos + 1)
          let els :=
            if !(tokens[r.2]? = some Token.codeTick) then
              els ++ [MdInlineElement.text ("`" ++ r.1 ++ "`")]
            else els ++ [MdInlineElement.code r.1]
          inlineLoop fuel tokens (r.2 + 1) els "" stk
        | Token.punctuation s =>
          if s = "!" then
            if !(tokens[pos + 1]? = some Token.openBracket) then
              inlineLoop fuel tokens (pos + 1) els (buf ++ "!") stk
            else
              let els := pushBufferEl els buf
              let r := parse_link_type true (2 * tokens.length + 2) tokens (pos + 1)
              inlineLoop fuel tokens (r.2 + 1) (els ++ [r.1]) "" stk
          else inlineLoop fuel tokens (pos + 1) els (buf ++ s) stk
        | Token.escape c =>
          inlineLoop fuel tokens (pos + 1) els (buf ++ "\\" ++ c.toString) stk
        | Token.text s => inlineLoop fuel tokens (pos + 1) els (buf ++ s) stk
        | Token.orderedListMarker s => inlineLoop fuel tokens (pos + 1) els (buf ++ s) stk
        | Token.whitespace => inlineLoop fuel tokens (pos + 1) els (buf ++ " ") stk
        | Token.closeBracket => inlineLoop fuel tokens (pos + 1) els (buf ++ "]") stk
        | Token.openParenthesis => inlineLoop fuel tokens (pos + 1) els (buf ++ "(") stk
        | Token.closeParenthesis => inlineLoop fuel tokens (pos + 1) els (buf ++ ")") stk
        | Token.thematicBreak => inlineLoop fuel tokens (pos + 1) els (buf ++ "---") stk
        | Token.tableCellSeparator => inlineLoop fuel tokens (pos + 1) els (buf ++ "|") stk
        | Token.blockQuoteMarker => inlineLoop fuel tokens (pos + 1) els (buf ++ ">") stk
        | Token.rawHtmlTag s => inlineLoop fuel tokens (pos + 1) els (buf ++ s) stk
        | _ => inlineLoop fuel tokens (pos + 1) (pushBufferEl els buf) "" stk
    else (els, buf, stk)

/-- `parse_inline` (`parser.rs:555`): run the main loop, flush, classify
every delimiter's flanking, then resolve emphasis. -/
def parse_inline (markdown_tokens : List Token) : List MdInlineElement :=
  let r := inlineLoop (markdown_tokens.length + 1) markdown_tokens 0 [] "" []
  let els := pushBufferEl r.1 r.2.1
  let stk := r.2.2.map (classify_flanking markdown_tokens)
  resolve_emphasis els stk

/-- `parse_heading` (`parser.rs:422`): count the leading `#` punctuation
tokens, require a following `Whitespace`, else fall back to a
paragraph. -/
def parse_heading (line : List Token) : MdBlockElement :=
  let heading_level := (line.takeWhile (fun t => t == Token.punctuation "#")).length
  if line.length ≤ heading_level || !(line.get? heading_level = some Token.whitespace) then
    MdBlockElement.paragraph (parse_inline line)
  else
    MdBlockElement.header heading_level (parse_inline (line.drop (heading_level + 1)))

/-- `split_row` (`parser.rs:528`): split a row on `TableCellSeparator`
and drop a leading and a trailing empty cell. -/
def split_row (row : List Token) : List (List Token) :=
  let cells := splitOnPred (fun t => t == Token.tableCellSeparator) row
  let cells := if cells.head? = some [] then cells.drop 1 else cells
  if cells.getLast? = some [] then cells.dropLast else cells

/-- `parse_table` (`parser.rs:453`). -/
def parse_table (line : List Token) : MdBlockElement :=
  let rows := splitOnPred (fun t => t == Token.newline) line
  if rows.length < 3 then MdBlockElement.paragraph (parse_inline line)
  else
    let header_row := rows.getD 0 []
    let alignment_row := rows.getD 1 []
    let alignments : List TableAlignment :=
      (split_row alignment_row).map fun cell_content =>
        let content := cell_content.foldl
          (fun acc t =>
            match t with
            | Token.text s => acc ++ s
            | Token.punctuation s => acc ++ s
            | Token.thematicBreak => acc ++ "---"
            | _ => acc)
          ""
        let sw := content.data.head? == some ':'
        let ew := content.data.getLast? == some ':'
        if sw && ew then TableAlignment.center
        else if sw then TableAlignment.left
        else if ew then TableAlignment.right
        else TableAlignment.none
    let headers : List MdTableCell :=
      (split_row header_row).enum.map fun p =>
        ⟨parse_inline p.2, alignments.getD p.1 TableAlignment.none, true⟩
    let body : List (List MdTableCell) :=
      (rows.drop 2).map fun row =>
        (split_row row).enum.map fun p =>
          ⟨parse_inline p.2, alignments.getD p.1 TableAlignment.none, false⟩
    MdBlockElement.table headers body

/-- Per-token rendering inside `parse_codeblock` (`parser.rs:368-399`),
as a fold over the `(lines, buffer)` state (the `Newline` arm cannot
fire on rows already split on newlines, but is kept faithful). -/
def codeblockTokenStep (st : List String × String) (t : Token) : List String × String :=
  let content := st.1
  let buf := st.2
  match t with
  | Token.text s => (content, buf ++ s)
  | Token.punctuation s => (content, buf ++ s)
  | Token.whitespace => (content, buf ++ " ")
  | Token.newline => (pushBufferStr content buf, "")
  | Token.tab => (content, buf ++ strRepeat " " tab_size)
  | Token.escape c => (content, buf ++ "\\" ++ c.toString)
  | Token.orderedListMarker s => (content, buf ++ s)
  | Token.emphasisRun d n => (content, buf ++ strRepeat d.toString n)
  | Token.openParenthesis => (content, buf ++ "(")
  | Token.closeParenthesis => (content, buf ++ ")")
  | Token.openBracket => (content, buf ++ "[")
  | Token.closeBracket => (content, buf ++ "]")
  | Token.tableCellSeparator => (content, buf ++ "|")
  | Token.codeTick => (content, buf ++ "`")
  | Token.codeFence => (content, buf)
  | Token.blockQuoteMarker => (content, buf ++ ">")
  | Token.rawHtmlTag s =>
    (content, buf ++ ((s.replace "<" "&lt;").replace ">" "&gt;"))
  | Token.thematicBreak => (content, buf ++ "---")

/-- `parse_codeblock` (`parser.rs:350`): optional language from the
second token, rows split on newlines, empty rows skipped, buffers
flushed per row. -/
def parse_codeblock (line : List Token) : MdBlockElement :=
  let rows := splitOnPred (fun t => t == Token.newline) line
  let language : Option String :=
    match line.get? 1 with
    | some (Token.text s) => some s
    | _ => none
  let rows := if language.isSome then rows.drop 1 else rows
  let st := rows.foldl
    (fun st row =>
      if row.isEmpty then st
      else
        let st := row.foldl codeblockTokenStep st
        (pushBufferStr st.1 st.2, if st.2 = "" then st.2 else ""))
    ([], "")
  let content := pushBufferStr st.1 st.2
  MdBlockElement.codeBlock language content

/-- Per-token rendering inside `parse_indented_codeblock`
(`parser.rs:93-125`); note it differs from the fenced-code rendering in
the `CodeFence` arm. -/
def indentedTokenStep (st : List String × String) (t : Token) : List String × String :=
  let content := st.1
  let buf := st.2
  match t with
  | Token.tab => (content, buf ++ strRepeat " " tab_size)
  | Token.text s => (content, buf ++ s)
  | Token.punctuation s => (content, buf ++ s)
  | Token.whitespace => (content, buf ++ " ")
  | Token.newline => (pushBufferStr content buf, "")
  | Token.escape c => (content, buf ++ "\\" ++ c.toString)
  | Token.orderedListMarker s => (content, buf ++ s)
  | Token.emphasisRun d n => (content, buf ++ strRepeat d.toString n)
  | Token.openParenthesis => (content, buf ++ "(")
  | Token.closeParenthesis => (content, buf ++ ")")
  | Token.openBracket => (content, buf ++ "[")
  | Token.closeBracket => (content, buf ++ "]")
  | Token.tableCellSeparator => (content, buf ++ "|")
  | Token.codeTick => (content, buf ++ "`")
  | Token.codeFence => (content, buf ++ "```")
  | Token.blockQuoteMarker => (content, buf ++ ">")
  | Token.thematicBreak => (content, buf ++ "---")
  | Token.rawHtmlTag s =>
    (content, buf ++ ((s.replace "<" "&lt;").replace ">" "&gt;"))

/-- `parse_indented_codeblock` (`parser.rs:82`): rows split on
newlines, the first token of every non-empty row is skipped, buffers
flushed per row. -/
def parse_indented_codeblock (line : List Token) : MdBlockElement :=
  let rows := splitOnPred (fun t => t == Token.newline) line
  let st := rows.foldl
    (fun st row =>
      if row.isEmpty then st
      else
        let st := (row.drop 1).foldl indentedTokenStep st
        (pushBufferStr st.1 st.2, ""))
    ([], "")
  MdBlockElement.codeBlock none st.1

/-- `parse_raw_html` (`parser.rs:144`): concatenate the faithful
rendering of every token. -/
def parse_raw_html (line : List Token) : MdBlockElement :=
  let html_content := line.foldl
    (fun acc t =>
      match t with
      | Token.rawHtmlTag s => acc ++ s
      | Token.text s => acc ++ s
      | Token.punctuation s => acc ++ s
      | Token.whitespace => acc ++ " "
      | Token.escape c => acc ++ "\\" ++ c.toString
      | Token.newline => acc ++ "\n"
      | Token.orderedListMarker s => acc ++ s
      | Token.emphasisRun d n => acc ++ strRepeat d.toString n
      | Token.openParenthesis => acc ++ "("
      | Token.closeParenthesis => acc ++ ")"
      | Token.openBracket => acc ++ "["
      | Token.closeBracket => acc ++ "]"
      | Token.tableCellSeparator => acc ++ "|"
      | Token.codeTick => acc ++ "`"
      | Token.codeFence => acc ++ "```"
      | Token.blockQuoteMarker => acc ++ ">"
      | Token.tab => acc ++ strRepeat " " tab_size
      | Token.thematicBreak => acc ++ "---")
    ""
  MdBlockElement.rawHtml html_content

/-- `attach_to_previous_block` (`parser.rs:1272`): optionally append a
separator, extend the previous block with the line, and swap it back
in place of the last pushed block. -/
def attach_to_previous_block (blocks : List (List Token)) (previous_block : List Token)
    (line : List Token) (separator : Option Token) : List (List Token) :=
  let previous_block :=
    match separator with
    | some s => previous_block ++ [s]
    | none => previous_block
  blocks.dropLast ++ [previous_block ++ line]

/-- `group_table_rows` (`parser.rs:1179`).  `current_block` is empty at
every call site; the helpers return `(blocks, current_block)`. -/
def group_table_rows (blocks : List (List Token)) (previous_block line : List Token) :
    List (List Token) × List Token :=
  if previous_block.head? = some Token.tableCellSeparator then
    (attach_to_previous_block blocks previous_block line (some Token.newline), [])
  else (blocks, line)

/-- `group_text_lines` (`parser.rs:1204`). -/
def group_text_lines (blocks : List (List Token)) (previous_block line : List Token) :
    List (List Token) × List Token :=
  match previous_block.head? with
  | some (Token.text _) =>
    (attach_to_previous_block blocks previous_block line (some Token.whitespace), [])
  | _ => (blocks, line)

/-- `group_setext_heading_one` (`parser.rs:1232`): prepend `#` and a
whitespace to the previous block and swap it in. -/
def group_setext_heading_one (blocks : List (List Token)) (previous_block : List Token) :
    List (List Token) :=
  blocks.dropLast ++ [[Token.punctuation "#", Token.whitespace] ++ previous_block]

/-- `group_ordered_list` (`parser.rs:1250`). -/
def group_ordered_list (blocks : List (List Token)) (previous_block line : List Token) :
    List (List Token) × List Token :=
  match previous_block.head? with
  | some (Token.orderedListMarker _) =>
    if previous_block[1]? = some Token.whitespace then
      (attach_to_previous_block blocks previous_block line (some Token.newline), [])
    else (blocks, line)
  | _ => (blocks, line)

/-- `group_tabbed_lines` (`parser.rs:1298`). -/
def group_tabbed_lines (blocks : List (List Token)) (previous_block line : List Token) :
    List (List Token) × List Token :=
  if line.length = 1 then (blocks, line)
  else
    let non_whitespace_index := line.findIdx? (fun t => !(isWsToken t))
    match line.get? (non_whitespace_index.getD 0) with
    | none => (blocks, [])
    | some first_content_token =>
      match first_content_token, previous_block.head? with
      | Token.rawHtmlTag _, some (Token.rawHtmlTag _) =>
        (attach_to_previous_block blocks previous_block (line.dropWhile isWsToken)
          (some Token.newline), [])
      | Token.rawHtmlTag _, _ => (blocks, line.dropWhile isWsToken)
      | _, _ =>
        match previous_block.head? with
        | some (Token.punctuation s) =>
          if s = "-" && previous_block[1]? = some Token.whitespace then
            (attach_to_previous_block blocks previous_block line (some Token.newline), [])
          else (blocks, line)
        | some (Token.orderedListMarker _) =>
          if previous_block[1]? = some Token.whitespace then
            (attach_to_previous_block blocks previous_block line (some Token.newline), [])
          else (blocks, line)
        | some (Token.rawHtmlTag _) =>
          (attach_to_previous_block blocks previous_block line (some Token.newline), [])
        | some Token.tab =>
          (attach_to_previous_block blocks previous_block line (some Token.newline), [])
        | _ => (blocks, line)

/-- `group_lines_with_leading_whitespace` (`parser.rs:1385`). -/
def group_lines_with_leading_whitespace (blocks : List (List Token))
    (previous_block line : List Token) : List (List Token) × List Token :=
  match line.find? (fun t => !(isWsToken t)) with
  | none => (blocks, [])
  | some first_content_token =>
    match previous_block.head? with
    | none => (blocks, line)
    | some Token.whitespace =>
      if line.any (fun t => !(isWsToken t)) then
        (attach_to_previous_block blocks previous_block line (some Token.newline), [])
      else (blocks, line)
    | some (Token.rawHtmlTag _) =>
      match first_content_token with
      | Token.rawHtmlTag _ =>
        (attach_to_previous_block blocks previous_block line (some Token.newline), [])
      | _ => (blocks, line)
    | some (Token.punctuation s) =>
      if s = "-" then
        match first_content_token with
        | Token.punctuation _ =>
          (attach_to_previous_block blocks previous_block line (some Token.newline), [])
        | _ => (blocks, line)
      else (attach_to_previous_block blocks previous_block line (some Token.newline), [])
    | some (Token.text _) =>
      (attach_to_previous_block blocks previous_block line (some Token.newline), [])
    | some _ => (blocks, line.dropWhile isWsToken)

/-- `group_dashed_lines` (`parser.rs:1466`). -/
def group_dashed_lines (blocks : List (List Token)) (previous_block line : List Token) :
    List (List Token) × List Token :=
  match previous_block.head? with
  | none => (blocks, line)
  | some prev_start =>
    let fallback : List (List Token) × List Token :=
      if 1 < line.length then (blocks, line)
      else
        (blocks.dropLast ++
          [[Token.punctuation "#", Token.punctuation "#", Token.whitespace] ++ previous_block],
         [])
    match prev_start with
    | Token.punctuation s =>
      if s = "-" && previous_block[1]? = some Token.whitespace then
        (attach_to_previous_block blocks previous_block line (some Token.newline), [])
      else if s = "#" then (blocks ++ [line], [])
      else fallback
    | _ => fallback

/-- The per-line body of `group_lines_to_blocks` (`parser.rs:1038-1167`)
once past the inside-a-fenced-code handling: returns
`(blocks, current_block, is_inside_code_block)`. -/
def groupDispatch (blocks : List (List Token)) (previous_block : List Token)
    (is_inside_code_block : Bool) (line : List Token) :
    List (List Token) × List Token × Bool :=
  match line.head? with
  | some (Token.punctuation s) =>
    if s = "#" then (blocks ++ [line], [], is_inside_code_block)
    else if s = "-" then
      let r := group_dashed_lines blocks previous_block line
      (r.1, r.2, is_inside_code_block)
    else (blocks, line, is_inside_code_block)
  | some Token.tab =>
    let r := group_tabbed_lines blocks previous_block line
    (r.1, r.2, is_inside_code_block)
  | some (Token.orderedListMarker _) =>
    let r := group_ordered_list blocks previous_block line
    (r.1, r.2, is_inside_code_block)
  | some Token.thematicBreak =>
    (match previous_block.head? with
     | none => (blocks, line, is_inside_code_block)
     | some (Token.punctuation s) =>
       if s = "#" then (blocks ++ [line], [], is_inside_code_block)
       else
         (blocks.dropLast ++
           [[Token.punctuation "#", Token.punctuation "#", Token.whitespace] ++ previous_block],
          [], is_inside_code_block)
     | some Token.newline => (blocks ++ [line], [], is_inside_code_block)
     | some _ =>
       (blocks.dropLast ++
         [[Token.punctuation "#", Token.punctuation "#", Token.whitespace] ++ previous_block],
        [], is_inside_code_block))
  | some Token.blockQuoteMarker =>
    (match previous_block.head? with
     | some Token.blockQuoteMarker =>
       (attach_to_previous_block blocks previous_block line (some Token.newline), [],
        is_inside_code_block)
     | _ => (blocks, line, is_inside_code_block))
  | some Token.codeTick => (blocks, line, is_inside_code_block)
  | some Token.codeFence =>
    if !is_inside_code_block then (blocks, line, true)
    else (blocks ++ [line], [], false)
  | some (Token.text s) =>
    if s = "=" then
      let has_trailing_content := (line.drop 1).any fun t =>
        match t with
        | Token.text s2 => !(s2 = "=")
        | Token.whitespace => false
        | Token.tab => false
        | Token.newline => false
        | _ => true
      match previous_block.head? with
      | some prev_start =>
        if !has_trailing_content && (match prev_start with | Token.text _ => true | _ => false) then
          (group_setext_heading_one blocks previous_block, [], is_inside_code_block)
        else
          let r := group_text_lines blocks previous_block line
          (r.1, r.2, is_inside_code_block)
      | none => (blocks, line, is_inside_code_block)
    else
      let r := group_text_lines blocks previous_block line
      (r.1, r.2, is_inside_code_block)
  | some Token.tableCellSeparator =>
    let r := group_table_rows blocks previous_block line
    (r.1, r.2, is_inside_code_block)
  | some Token.whitespace =>
    let r := group_lines_with_leading_whitespace blocks previous_block line
    (r.1, r.2, is_inside_code_block)
  | _ => (blocks, line, is_inside_code_block)

/-- One full iteration of the `group_lines_to_blocks` loop, including
the inside-fenced-code fusing and the trailing push of a non-empty
`current_block`. -/
def groupStep (st : List (List Token) × Bool) (line : List Token) :
    List (List Token) × Bool :=
  let blocks := st.1
  let is_inside_code_block := st.2
  let previous_block := blocks.getLast?.getD []
  if is_inside_code_block && !(line.head? = some Token.codeFence) then
    (attach_to_previous_block blocks previous_block line (some Token.newline),
     is_inside_code_block)
  else if is_inside_code_block && line.head? = some Token.codeFence then
    (attach_to_previous_block blocks previous_block line none, false)
  else
    let d := groupDispatch blocks previous_block is_inside_code_block line
    ((if d.2.1.isEmpty then d.1 else d.1 ++ [d.2.1]), d.2.2)

/-- `group_lines_to_blocks` (`parser.rs:1032`). -/
def group_lines_to_blocks (tokenized_lines : List (List Token)) : List (List Token) :=
  (tokenized_lines.foldl groupStep ([], false)).1

/-- The per-line stripping of `parse_blockquote` (`parser.rs:190-204`):
drop one leading `>` and one optional following space. -/
def stripBlockQuote (tokens : List Token) : List Token :=
  if tokens.head? = some Token.blockQuoteMarker
      && tokens[1]? = some Token.whitespace then tokens.drop 2
  else if tokens.head? = some Token.blockQuoteMarker then tokens.drop 1
  else tokens

/-- `parse_blockquote` (`parser.rs:187`) abstracted over the recursive
block parser `pb` (tied to the fuelled `parse_block` below): strip,
regroup, parse recursively, and fall back to a paragraph when no
content results. -/
def parse_blockquote_core (pb : List Token → Option MdBlockElement)
    (line : List Token) : MdBlockElement :=
  let inner_blocks := (splitOnPred (fun t => t == Token.newline) line).map stripBlockQuote
  let grouped_inner_blocks := group_lines_to_blocks inner_blocks
  let content := grouped_inner_blocks.filterMap pb
  if content.isEmpty then MdBlockElement.paragraph (parse_inline line)
  else MdBlockElement.blockQuote content

/-- The `is_list_item` predicates passed by `parse_ordered_list` /
`parse_unordered_list` (`parser.rs:228-259`). -/
def isListItemLine (ordered : Bool) (tokens : List Token) : Bool :=
  if ordered then
    (match tokens.head? with
     | some (Token.orderedListMarker _) => true
     | _ => false) && tokens[1]? = some Token.whitespace
  else
    tokens.head? = some (Token.punctuation "-") && tokens[1]? = some Token.whitespace

/-- The `while` loop of `parse_list` (`parser.rs:283-335`), abstracted
over the item parser `pb` and the nested-list parser `nested`; `steps`
fuel bounds the iterations (the index grows every step, so
`lines.length + 1` suffices). -/
def parse_list_loop (pb : List Token → Option MdBlockElement)
    (nested : List Token → MdBlockElement) (ordered : Bool)
    (lines : List (List Token)) : Nat → Nat → List MdListItem → List MdListItem
  | 0, _, acc => acc
  | steps + 1, i, acc =>
    if i < lines.length then
      let line := lines.getD i []
      if isListItemLine ordered line then
        let acc :=
          match pb (line.drop 2) with
          | some content => acc ++ [MdListItem.mk content]
          | none => acc
        let nested_lines := (lines.drop (i + 1)).takeWhile
          (fun l => l.head? = some Token.tab)
        if nested_lines.isEmpty then parse_list_loop pb nested ordered lines steps (i + 1) acc
        else
          let stripped := nested_lines.map (fun l => l.dropWhile (fun t => t == Token.tab))
          let nested_tokens := List.intercalate [Token.newline] stripped
          let acc := acc ++ [MdListItem.mk (nested nested_tokens)]
          parse_list_loop pb nested ordered lines steps (i + 1 + nested_lines.length) acc
      else parse_list_loop pb nested ordered lines steps (i + 1) acc
    else acc

/-- `parse_list` (`parser.rs:273`) abstracted over the recursive block
parser, with one fuel unit consumed per nesting level of lists (Rust
recursion is bounded by the shrinking nested token lists). -/
def parse_list_core : Nat → (List Token → Option MdBlockElement) → Bool → List Token →
    List MdListItem
  | 0, _, _, _ => []
  | fuel + 1, pb, ordered, list =>
    let lines := splitOnPred (fun t => t == Token.newline) list
    let nested : List Token → MdBlockElement := fun nested_tokens =>
      match nested_tokens.head? with
      | some (Token.orderedListMarker _) =>
        MdBlockElement.orderedList (parse_list_core fuel pb true nested_tokens)
      | _ => MdBlockElement.unorderedList (parse_list_core fuel pb false nested_tokens)
    parse_list_loop pb nested ordered lines (lines.length + 1) 0 []

/-- `parse_block` (`parser.rs:42`): dispatch on the first token.  The
fuel bounds the block-quote/list recursion depth; `0` yields `none`
(unreachable for ample fuel, since every recursion strictly shrinks the
token material). -/
def parse_block : Nat → List Token → Option MdBlockElement
  | 0, _ => none
  | fuel + 1, line =>
    match line.head? with
    | some (Token.punctuation s) =>
      if s = "#" then some (parse_heading line)
      else if s = "-" then
        if line.length = 1 then some MdBlockElement.thematicBreak
        else some (MdBlockElement.unorderedList (parse_list_core fuel (parse_block fuel) false line))
      else some (MdBlockElement.paragraph (parse_inline line))
    | some (Token.orderedListMarker _) =>
      some (MdBlockElement.orderedList (parse_list_core fuel (parse_block fuel) true line))
    | some Token.codeFence => some (parse_codeblock line)
    | some Token.thematicBreak => some MdBlockElement.thematicBreak
    | some Token.tableCellSeparator => some (parse_table line)
    | some Token.blockQuoteMarker => some (parse_blockquote_core (parse_block fuel) line)
    | some (Token.rawHtmlTag _) => some (parse_raw_html line)
    | some Token.tab => some (parse_indented_codeblock line)
    | some Token.newline => none
    | _ => some (MdBlockElement.paragraph (parse_inline line))

/-- `parse_blocks` (`parser.rs:23`): parse every grouped block, keeping
the `Some` results. -/
def parse_blocks (fuel : Nat) (markdown_lines : List (List Token)) : List MdBlockElement :=
  markdown_lines.filterMap (parse_block fuel)

/-- `parse_blockquote` (`parser.rs:187`) at a given fuel. -/
def parse_blockquote (fuel : Nat) (line : List Token) : MdBlockElement :=
  parse_blockquote_core (parse_block fuel) line

/-- `parse_unordered_list` (`parser.rs:250`) at a given fuel. -/
def parse_unordered_list (fuel : Nat) (list : List Token) : MdBlockElement :=
  MdBlockElement.unorderedList (parse_list_core fuel (parse_block fuel) false list)

/-- `parse_ordered_list` (`parser.rs:228`) at a given fuel. -/
def parse_ordered_list (fuel : Nat) (list : List Token) : MdBlockElement :=
  MdBlockElement.orderedList (parse_list_core fuel (parse_block fuel) true list)

/-- Concatenation of the `parse_code_span` rendering of a token list:
the content string an unclosed code span scan produces. -/
def renderCodeAll : List Token → String
  | [] => ""
  | t :: ts => renderSpanToken t ++ renderCodeAll ts

/-- Whether an inline element list contains a `Placeholder`, looking
inside `Bold`/`Italic`/`Link` content; fuelled like `flatten_inline`. -/
def hasPlaceholder : Nat → List MdInlineElement → Bool
  | 0, _ => false
  | _ + 1, [] => false
  | f + 1, el :: rest =>
    (match el with
     | MdInlineElement.placeholder => true
     | MdInlineElement.bold c => hasPlaceholder f c
     | MdInlineElement.italic c => hasPlaceholder f c
     | MdInlineElement.link t _ _ => hasPlaceholder f t
     | _ => false) || hasPlaceholder f rest

/-- The condition under which the `ThematicBreak` dispatch arm of
`group_lines_to_blocks` (`parser.rs:1068-1087`) rewrites the previous
block into a setext H2: the last pushed block is non-empty and starts
with neither a `"#"` punctuation token nor a `Newline`. -/
def setextH2RewriteApplies (blocks : List (List Token)) : Bool :=
  match blocks.getLast? with
  | none => false
  | some prev =>
    match prev.head? with
    | none => false
    | some (Token.punctuation s) => !(s = "#")
    | some Token.newline => false
    | some _ => true

/-- The token list of the source text `a **b* c`. -/
def exUnbalanced : List Token :=
  [Token.text "a", Token.whitespace, Token.emphasisRun '*' 2, Token.text "b",
   Token.emphasisRun '*' 1, Token.whitespace, Token.text "c"]

/-- The token list of the source text `*a _b* c`. -/
def exCaptured : List Token :=
  [Token.emphasisRun '*' 1, Token.text "a", Token.whitespace, Token.emphasisRun '_' 1,
   Token.text "b", Token.emphasisRun '*' 1, Token.whitespace, Token.text "c"]

/-- The token list of a table whose single-cell header is followed by a
two-cell body row (`|h|` / `|---|` / `|x|y|`). -/
def exWideTable : List Token :=
  [Token.tableCellSeparator, Token.text "h", Token.tableCellSeparator, Token.newline,
   Token.tableCellSeparator, Token.thematicBreak, Token.tableCellSeparator, Token.newline,
   Token.tableCellSeparator, Token.text "x", Token.tableCellSeparator, Token.text "y",
   Token.tableCellSeparator]

/-- C1: the claim says every `Header` from `parse_blocks` has level in
`1..=6` and that seven or more leading `#` tokens followed by a
whitespace fall back to a `Paragraph`.  The code has no upper bound:
`parse_heading` counts the `#` tokens and only checks the following
whitespace, so the line `####### x` yields `Header{level: 7}` from both
`parse_block` and `parse_blocks`, contradicting the claim. -/
theorem c1_excess_hashes_yield_header_level_seven :
    parse_blocks 1
      [[Token.punctuation "#", Token.punctuation "#", Token.punctuation "#",
        Token.punctuation "#", Token.punctuation "#", Token.punctuation "#",
        Token.punctuation "#", Token.whitespace, Token.text "x"]] =
      [MdBlockElement.header 7 [MdInlineElement.text "x"]] := rfl

/-- C2: the claim says a resolved opener-closer pair inserts a node
whose content is exactly the elements strictly between the two
placeholders, also when the opener's `run_length` exceeds the consumed
amount.  In that case the code sets `range_start` to
`opener.parsed_position + 1` but still takes content from
`range_start + 1`, so the first enclosed element is spliced away and
dropped: resolving `**`/`*` around `Text "b"` yields `Italic []`
instead of `Italic [Text "b"]`, both directly in `resolve_emphasis` and
through `parse_inline` on `a **b* c`. -/
theorem c2_opener_excess_drops_first_enclosed_element :
    resolve_emphasis [MdInlineElement.placeholder, MdInlineElement.text "b",
        MdInlineElement.placeholder]
      [⟨2, '*', 0, 0, true, true, false⟩, ⟨1, '*', 2, 2, true, false, true⟩] =
      [MdInlineElement.text "*", MdInlineElement.italic []] ∧
    parse_inline exUnbalanced =
      [MdInlineElement.text "a ", MdInlineElement.text "*", MdInlineElement.italic [],
       MdInlineElement.text " c"] := ⟨rfl, rfl⟩

/-- C3: the claim (and the spec's boundary test) says `***foo***`
parses to one `Paragraph` holding `Bold [Italic [Text "foo"]]`.  The
code resolves the two length-3 runs once as a bold pair, and the
opener-excess slip of C2 drops `Text "foo"` entirely: the result is
`Paragraph [Text "*", Bold []]`. -/
theorem c3_triple_star_not_bold_italic :
    parse_block 1 [Token.emphasisRun '*' 3, Token.text "foo", Token.emphasisRun '*' 3] =
      some (MdBlockElement.paragraph [MdInlineElement.text "*", MdInlineElement.bold []]) := rfl

/-- C4: the claim says no `Placeholder` survives `parse_inline`.  A
placeholder whose delimiter stays active but whose slot was spliced
into resolved emphasis content is neither removed nor rewritten (the
final rewrite only touches `parsed_position < elements.len()`), so for
`*a _b* c` the unmatched `_` placeholder leaks inside the `Italic`
content of the output. -/
theorem c4_placeholder_survives_inside_italic :
    parse_inline exCaptured =
      [MdInlineElement.italic [MdInlineElement.text "a ", MdInlineElement.placeholder,
        MdInlineElement.text "b"], MdInlineElement.text " c"] ∧
    hasPlaceholder 8 (parse_inline exCaptured) = true := ⟨rfl, rfl⟩

/-- C5 counterexample: `parse_table` builds every body row with
`split_row` and never truncates to the header width, so the body row
`|x|y|` under the single-cell header `|h|` has 2 cells, refuting
"every body row has at most as many cells as the header". -/
theorem c5_body_row_wider_than_header :
    ∃ headers body, parse_table exWideTable = MdBlockElement.table headers body ∧
      ¬(∀ row ∈ body, row.length ≤ headers.length) := by
  refine ⟨_, _, rfl, ?_⟩
  decide

/-- C7: the claim says that when the token after the label's `]` is not
`(`, `parse_link_type` consumes nothing beyond the `]` and the caller
still processes the following token.  The function in fact advances
past the `]` before returning, and `parse_inline`'s trailing
`cursor.advance()` then skips the following token: parsing `[a]b`
yields only `Text "[a]"` and the `Text "b"` token is dropped from the
output. -/
theorem c7_token_after_label_swallowed :
    parse_inline [Token.openBracket, Token.text "a", Token.closeBracket, Token.text "b"] =
      [MdInlineElement.text "[a]"] ∧
    parse_link_type false 10
      [Token.openBracket, Token.text "a", Token.closeBracket, Token.text "b"] 0 =
      (MdInlineElement.text "[a]", 3) := ⟨rfl, rfl⟩

/-- C8 counterexample: the claim says the unclosed span is emitted with
no characters added, but `parse_inline` formats it as
``format!("`{content}`")``, appending a closing backtick that is not in
the source: the two tokens of ``​`a`` come out as ``Text "`a`"``, not
``Text "`a"``. -/
theorem c8_closing_backtick_added :
    parse_inline [Token.codeTick, Token.text "a"] = [MdInlineElement.text "`a`"] ∧
    ¬("`a`" = "`a") := ⟨rfl, by decide⟩

/-- C6 counterexample: the claim says the setext-H2 rewrite happens
exactly for a previous block that is a non-empty paragraph-style run,
and that otherwise the `---` line is pushed as its own block.  A
previous block that is a list line `- a` is not a paragraph-style run,
yet the code rewrites it into `## - a` and the `---` line is not pushed
as its own block. -/
theorem c6_list_line_rewritten_to_setext :
    group_lines_to_blocks [[Token.punctuation "-", Token.whitespace, Token.text "a"],
        [Token.thematicBreak]] =
      [[Token.punctuation "#", Token.punctuation "#", Token.whitespace,
        Token.punctuation "-", Token.whitespace, Token.text "a"]] ∧
    ¬([Token.thematicBreak] ∈ group_lines_to_blocks
        [[Token.punctuation "-", Token.whitespace, Token.text "a"], [Token.thematicBreak]]) :=
  ⟨rfl, by decide⟩

/-- Every delimiter in the local stack built by the label loop of
`parse_link_type` has both flanking flags set, provided the initial
stack does: the loop only ever pushes delimiters created with
`can_open: true, can_close: true` and never mutates the flags. -/
theorem labelLoop_all_flags (tokens : List Token) :
    ∀ (fuel pos : Nat) (els : List MdInlineElement) (buf : String) (stk : List Delimiter),
      stk.all (fun d => d.can_open && d.can_close) = true →
      ((labelLoop fuel tokens pos els buf stk).2.2.1).all
        (fun d => d.can_open && d.can_close) = true := by
  intro fuel
  induction fuel with
  | zero => intro pos els buf stk h; simpa [labelLoop] using h
  | succ f ih =>
    intro pos els buf stk h
    rw [labelLoop]
    cases htok : tokens[pos]? with
    | none => simpa using h
    | some tok =>
      cases tok
      case closeBracket => simpa using h
      case emphasisRun d n => exact ih _ _ _ _ (by simp [List.all_append, h])
      case punctuation s =>
        dsimp only
        split
        · split
          · exact ih _ _ _ _ h
          · exact ih _ _ _ _ h
        · exact ih _ _ _ _ h
      all_goals exact ih _ _ _ _ h

/-- C9: every `Delimiter` pushed while scanning a link or image label
in `parse_link_type` has `can_open = true` and `can_close = true` when
the local `resolve_emphasis` call runs: `parse_link_type` is
`finishLinkType` applied to the `labelLoop` result, and
`finishLinkType` resolves exactly the stack the loop returns, on which
no flanking classification is ever applied. -/
theorem c9_label_delimiters_fully_flanking (fuel pos : Nat) (tokens : List Token) :
    ((labelLoop fuel tokens pos [] "" []).2.2.1).all
      (fun d => d.can_open && d.can_close) = true :=
  labelLoop_all_flags tokens fuel pos [] "" [] rfl

/-- C10: `parse_block` on a block starting with `BlockQuoteMarker`
defers to `parse_blockquote`, which never returns an empty
`BlockQuote`: when stripping the quote markers, regrouping and
recursively parsing yields no blocks, the result is a `Paragraph` of
`parse_inline` applied to the original tokens. -/
theorem c10_blockquote_never_empty (fuel : Nat) (line : List Token)
    (h : line.head? = some Token.blockQuoteMarker) :
    parse_block (fuel + 1) line = some (parse_blockquote fuel line) ∧
    (∀ c, parse_blockquote fuel line = MdBlockElement.blockQuote c → c ≠ []) ∧
    (parse_blocks fuel (group_lines_to_blocks
        ((splitOnPred (fun t => t == Token.newline) line).map stripBlockQuote)) = [] →
      parse_blockquote fuel line = MdBlockElement.paragraph (parse_inline line)) := by
  refine ⟨?_, ?_, ?_⟩
  · rw [parse_block, h]
    rfl
  · intro c hc
    simp only [parse_blockquote, parse_blockquote_core] at hc
    split at hc
    · exact absurd hc (by simp)
    · rename_i hne
      injection hc with hc'
      subst hc'
      intro hnil
      rw [hnil] at hne
      simp at hne
  · intro h3
    unfold parse_blocks at h3
    simp only [parse_blockquote, parse_blockquote_core]
    rw [h3]
    rfl

/-- Closed instance of `c10_blockquote_never_empty` at the one-token
block `>` (whose stripped regrouping parses to nothing). -/
theorem c10_blockquote_never_empty_witness :
    parse_block 3 [Token.blockQuoteMarker] =
      some (MdBlockElement.paragraph [MdInlineElement.text ">"]) ∧
    (∀ c, parse_blockquote 2 [Token.blockQuoteMarker] = MdBlockElement.blockQuote c →
      c ≠ []) := by
  have h := c10_blockquote_never_empty 2 [Token.blockQuoteMarker] rfl
  exact ⟨h.1.trans rfl, h.2.1⟩

/-- C5 (amended): the body of every `Table` returned by `parse_table`
is the row-wise image of `split_row`, so each body row has exactly as
many cells as `split_row` yields for its source row, with no
truncation to the header width. -/
theorem c5_body_row_lengths (line : List Token) (headers : List MdTableCell)
    (body : List (List MdTableCell))
    (h : parse_table line = MdBlockElement.table headers body) :
    body.map List.length =
      ((splitOnPred (fun t => t == Token.newline) line).drop 2).map
        (fun r => (split_row r).length) := by
  simp only [parse_table] at h
  split at h
  · exact absurd h (by simp)
  · injection h with h1 h2
    subst h2
    simp [List.map_map, Function.comp_def]

/-- Closed instance of `c5_body_row_lengths` at the wide-bodied
table. -/
theorem c5_body_row_lengths_witness :
    ∃ headers body, parse_table exWideTable = MdBlockElement.table headers body ∧
      body.map List.length =
        ((splitOnPred (fun t => t == Token.newline) exWideTable).drop 2).map
          (fun r => (split_row r).length) :=
  ⟨_, _, rfl, c5_body_row_lengths exWideTable _ _ rfl⟩

/-- C6 (amended): on a lone `ThematicBreak` line outside fenced code,
one grouping step performs the setext-H2 rewrite of the previously
pushed block exactly when that block is non-empty and starts with
neither a `"#"` punctuation token nor a `Newline`; in every other case
the `---` line is pushed as its own block.  Grouping `a` / `---` and
parsing yields exactly `[Header{level: 2, content: [Text "a"]}]`. -/
theorem c6_setext_rewrite_condition :
    (∀ blocks : List (List Token),
      groupStep (blocks, false) [Token.thematicBreak] =
        (if setextH2RewriteApplies blocks then
          blocks.dropLast ++
            [[Token.punctuation "#", Token.punctuation "#", Token.whitespace] ++
              blocks.getLast?.getD []]
         else blocks ++ [[Token.thematicBreak]], false)) ∧
    parse_blocks 1 (group_lines_to_blocks [[Token.text "a"], [Token.thematicBreak]]) =
      [MdBlockElement.header 2 [MdInlineElement.text "a"]] := by
  constructor
  · intro blocks
    cases hL : blocks.getLast? with
    | none => simp [groupStep, groupDispatch, setextH2RewriteApplies, hL]
    | some prev =>
      cases prev with
      | nil => simp [groupStep, groupDispatch, setextH2RewriteApplies, hL]
      | cons t ts =>
        cases t <;> simp [groupStep, groupDispatch, setextH2RewriteApplies, hL]
        case punctuation s =>
          by_cases hs : s = "#" <;> simp [hs]
  · rfl

/-- When the scan of `parse_code_span` starts within bounds with enough
fuel and no closing tick remains, it consumes everything, rendering
each token in order, and stops at the end of the tokens. -/
theorem parse_code_span_renders_all (tokens : List Token) :
    ∀ (fuel pos : Nat), pos ≤ tokens.length → tokens.length - pos ≤ fuel →
      (tokens.drop pos).all (fun t => !(t == Token.codeTick)) = true →
      parse_code_span fuel tokens pos = (renderCodeAll (tokens.drop pos), tokens.length) := by
  intro fuel
  induction fuel with
  | zero =>
    intro pos hp hf _
    have hpl : pos = tokens.length := by omega
    subst hpl
    simp [parse_code_span, renderCodeAll, List.drop_length]
  | succ f ih =>
    intro pos hp hf hall
    cases htok : tokens[pos]? with
    | none =>
      have hlen : tokens.length ≤ pos := by
        by_contra hc
        rw [List.getElem?_eq_getElem (by omega)] at htok
        exact Option.noConfusion htok
      have hpl : pos = tokens.length := le_antisymm hp hlen
      subst hpl
      simp [parse_code_span, htok, List.drop_length, renderCodeAll]
    | some t =>
      have hlt : pos < tokens.length := by
        by_contra hc
        rw [List.getElem?_eq_none (by omega)] at htok
        exact Option.noConfusion htok
      have hget : tokens[pos] = t := by
        rw [List.getElem?_eq_getElem hlt] at htok
        exact Option.some.inj htok
      have hdrop : tokens.drop pos = t :: tokens.drop (pos + 1) := by
        rw [List.drop_eq_getElem_cons hlt, hget]
      rw [hdrop] at hall
      simp only [List.all_cons, Bool.and_eq_true] at hall
      obtain ⟨ht, hrest⟩ := hall
      have htne : ¬(t = Token.codeTick) := by simpa using ht
      rw [parse_code_span, htok]
      simp only [if_neg htne]
      rw [ih (pos + 1) (by omega) (by omega) hrest, hdrop]
      simp [renderCodeAll]

/-- `inlineLoop` returns its state unchanged once the cursor is at or
past the end of the tokens. -/
theorem inlineLoop_past_end (fuel : Nat) (tokens : List Token) (pos : Nat)
    (els : List MdInlineElement) (buf : String) (stk : List Delimiter)
    (h : tokens.length ≤ pos) :
    inlineLoop fuel tokens pos els buf stk = (els, buf, stk) := by
  cases fuel <;> simp [inlineLoop, Nat.not_lt.mpr h]

/-- C8 (amended): when the token under the cursor is a `CodeTick` with
no later `CodeTick`, the inline scan flushes the buffer and pushes one
`Text` element made of the opening backtick, the code-span rendering of
every remaining token, and an appended closing backtick — never a
`Code` element — and the loop then ends with the delimiter stack
unchanged (emphasis resolution runs afterwards in `parse_inline`). -/
theorem c8_unclosed_span_layout (fuel : Nat) (tokens : List Token) (pos : Nat)
    (els : List MdInlineElement) (buf : String) (stk : List Delimiter)
    (h : tokens[pos]? = some Token.codeTick)
    (hall : (tokens.drop (pos + 1)).all (fun t => !(t == Token.codeTick)) = true) :
    inlineLoop (fuel + 1) tokens pos els buf stk =
      (pushBufferEl els buf ++
        [MdInlineElement.text ("`" ++ renderCodeAll (tokens.drop (pos + 1)) ++ "`")],
       "", stk) := by
  have hlt : pos < tokens.length := by
    by_contra hc
    rw [List.getElem?_eq_none (by omega)] at h
    exact Option.noConfusion h
  rw [inlineLoop]
  rw [if_pos hlt, h]
  simp only
  rw [parse_code_span_renders_all tokens tokens.length (pos + 1) (by omega) (by omega) hall]
  have hnone : tokens[tokens.length]? = none := List.getElem?_eq_none (le_refl _)
  simp only [hnone]
  rw [if_pos (by simp)]
  exact inlineLoop_past_end fuel tokens (tokens.length + 1) _ "" stk (by omega)

/-- Closed instance of `c8_unclosed_span_layout` on the two-token
span. -/
theorem c8_unclosed_span_layout_witness :
    inlineLoop 1 [Token.codeTick, Token.text "a"] 0 [] "" [] =
      ([MdInlineElement.text "`a`"], "", ([] : List Delimiter)) :=
  (c8_unclosed_span_layout 0 [Token.codeTick, Token.text "a"] 0 [] "" [] rfl rfl).trans rfl

end Markrs
